import Mathlib

/-!
Verification development for the pelican-events-plugin (`src/events.py`).

The file shallowly embeds the plugin's data model and operations in Lean:

* CPython `datetime` values become `PyDateTime` (civil wall-clock fields plus an
  optional UTC offset in minutes; `tz = none` models a naive datetime), with the
  proleptic-Gregorian ordinal arithmetic of CPython's `datetime` module
  (`_ymd2ord` / `_ord2ymd` / `_days_before_year` and friends) reimplemented on `Nat`.
* The plugin's functions `parse_tstamp`, `parse_timedelta`, `basic_utc_isoformat`,
  `parse_article`, `insert_recurring_events`, `generate_localized_events`,
  `generate_ical_file` and `populate_context_variables` become Lean functions.
  Raised Python exceptions become `Except PyError`.
* External collaborators declared out of scope by the design (HTML tag stripping,
  the free-text recurrence machinery, file IO, the Pelican signal plumbing) enter
  as function parameters or are represented by the values they produce.
-/

namespace PelicanEvents

/-! ### Proleptic Gregorian calendar arithmetic (CPython `datetime` internals) -/

/-- CPython `_is_leap`. -/
def isLeap (y : Nat) : Bool := y % 4 == 0 && (y % 100 != 0 || y % 400 == 0)

/-- CPython `_DAYS_IN_MONTH`, with the leap flag supplied separately. -/
def daysInMonthL (L : Bool) (m : Nat) : Nat :=
  if m = 2 then (if L then 29 else 28)
  else if m = 4 ∨ m = 6 ∨ m = 9 ∨ m = 11 then 30
  else 31

/-- CPython `_days_in_month`. -/
def daysInMonth (y m : Nat) : Nat := daysInMonthL (isLeap y) m

/-- CPython `_DAYS_BEFORE_MONTH`: cumulative day counts of a non-leap year. -/
def daysBeforeMonthT (m : Nat) : Nat :=
  match m with
  | 1 => 0 | 2 => 31 | 3 => 59 | 4 => 90 | 5 => 120 | 6 => 151
  | 7 => 181 | 8 => 212 | 9 => 243 | 10 => 273 | 11 => 304 | 12 => 334
  | _ => 365

/-- Days in year `y` strictly before month `m`, leap flag supplied separately. -/
def daysBeforeMonthL (L : Bool) (m : Nat) : Nat :=
  daysBeforeMonthT m + (if 2 < m ∧ L = true then 1 else 0)

/-- CPython `_days_before_month`. -/
def daysBeforeMonth (y m : Nat) : Nat := daysBeforeMonthL (isLeap y) m

/-- CPython `_days_before_year`: days before January 1st of year `y` (`y ≥ 1`). -/
def daysBeforeYear (y : Nat) : Nat :=
  (y-1)*365 + (y-1)/4 - (y-1)/100 + (y-1)/400

/-- CPython `_ymd2ord`: proleptic Gregorian ordinal; day 1 is 0001-01-01. -/
def ymd2ord (y m d : Nat) : Nat := daysBeforeYear y + daysBeforeMonth y m + d

/-- CPython `_ord2ymd`: inverse of `ymd2ord` on valid ordinals (`n ≥ 1`). -/
def ord2ymd (n : Nat) : Nat × Nat × Nat :=
  let n := n - 1
  let n400 := n / 146097
  let n := n % 146097
  let n100 := n / 36524
  let n := n % 36524
  let n4 := n / 1461
  let n := n % 1461
  let n1 := n / 365
  let n := n % 365
  let year := n400 * 400 + 1 + n100 * 100 + n4 * 4 + n1
  if n1 = 4 ∨ n100 = 4 then
    (year - 1, 12, 31)
  else
    let leapyear := n1 == 3 && (n4 != 24 || n100 == 3)
    let month := (n + 50) / 32
    let preceding := daysBeforeMonthL leapyear month
    let mp :=
      if n < preceding
      then (month - 1, preceding - daysInMonthL leapyear (month - 1))
      else (month, preceding)
    (year, mp.1, n - mp.2 + 1)

/-! ### The `datetime` model -/

/-- A CPython `datetime`: civil wall-clock fields plus an optional fixed UTC offset
in minutes. `tz = none` models a naive value. Microseconds are carried because
`timedelta` arithmetic can introduce sub-second amounts. -/
structure PyDateTime where
  year : Nat
  month : Nat
  day : Nat
  hour : Nat
  minute : Nat
  second : Nat
  usec : Nat
  tz : Option Int
deriving Repr, DecidableEq

/-- Wall-clock seconds on the proleptic-ordinal scale, ignoring the offset. -/
def wallSeconds (dt : PyDateTime) : Int :=
  (ymd2ord dt.year dt.month dt.day : Int) * 86400
    + dt.hour * 3600 + dt.minute * 60 + dt.second

/-- Wall-clock microseconds on the proleptic-ordinal scale, ignoring the offset. -/
def wallMicros (dt : PyDateTime) : Int := wallSeconds dt * 1000000 + dt.usec

/-- The absolute instant, in microseconds, of an aware datetime. CPython compares
aware datetimes by this instant. The embedded code never compares a naive value
against an aware one (CPython would raise `TypeError` there), so the `getD 0`
fallback for naive values is not observable on the embedded code paths. -/
def instantMicros (dt : PyDateTime) : Int :=
  wallMicros dt - (dt.tz.getD 0) * 60 * 1000000

/-- `a <= b` on aware datetimes (instant comparison). -/
def pyLe (a b : PyDateTime) : Bool := decide (instantMicros a ≤ instantMicros b)

/-- Rebuild a datetime from wall-clock microseconds (CPython `_fromtimestamp`-style
normalization; the ordinal must land in the supported year range, as in CPython
where it otherwise raises `OverflowError`). -/
def fromWallMicros (t : Int) (tz : Option Int) : PyDateTime :=
  let us := (t % 1000000).toNat
  let w := t / 1000000
  let sod := (w % 86400).toNat
  let ord := (w / 86400).toNat
  let ymd := ord2ymd ord
  { year := ymd.1, month := ymd.2.1, day := ymd.2.2,
    hour := sod / 3600, minute := sod % 3600 / 60, second := sod % 60,
    usec := us, tz := tz }

/-- `datetime.astimezone()` with no argument: a naive value is assumed to be local
time and gets the local zone attached (wall clock unchanged); an aware value is
converted to the local zone. `localTz` is the host system's offset in minutes. -/
def astimezone (localTz : Int) (dt : PyDateTime) : PyDateTime :=
  match dt.tz with
  | none => { dt with tz := some localTz }
  | some off => fromWallMicros (wallMicros dt + (localTz - off) * 60 * 1000000) (some localTz)

/-- `datetime.astimezone(timezone.utc)`: a naive value is assumed to be local time. -/
def astimezoneUTC (localTz : Int) (dt : PyDateTime) : PyDateTime :=
  fromWallMicros (wallMicros dt - (dt.tz.getD localTz) * 60 * 1000000) (some 0)

/-- `datetime.replace(tzinfo=None)`. -/
def replaceTzNone (dt : PyDateTime) : PyDateTime := { dt with tz := none }

/-- `dt + timedelta` where the delta is a count of microseconds: CPython adds the
delta to the wall clock and keeps the `tzinfo` unchanged. -/
def addTimedelta (dt : PyDateTime) (tdUs : Int) : PyDateTime :=
  fromWallMicros (wallMicros dt + tdUs) dt.tz

/-- `datetime.date()`: the wall-clock date triple of the value's own zone. -/
def dateTriple (dt : PyDateTime) : Nat × Nat × Nat := (dt.year, dt.month, dt.day)

/-- `date <= date` in CPython: lexicographic comparison of `(year, month, day)`. -/
def dateLe (a b : Nat × Nat × Nat) : Bool :=
  decide (a.1 < b.1) ||
    (decide (a.1 = b.1) &&
      (decide (a.2.1 < b.2.1) || (decide (a.2.1 = b.2.1) && decide (a.2.2 ≤ b.2.2))))

/-! ### Timestamp formatting (`basic_utc_isoformat`) -/

/-- One decimal digit character. -/
def digitChar (n : Nat) : Char := Char.ofNat (48 + n % 10)

/-- Two-digit zero-padded decimal rendering (`%02d`, for values below 100). -/
def pad2 (n : Nat) : List Char := [digitChar (n / 10), digitChar n]

/-- Four-digit zero-padded decimal rendering (`%04d`, for values below 10000). -/
def pad4 (n : Nat) : List Char :=
  [digitChar (n / 1000), digitChar (n / 100), digitChar (n / 10), digitChar n]

/-- `datetime.isoformat(timespec='seconds')` of a naive value:
`YYYY-MM-DDTHH:MM:SS`. -/
def isoformatSeconds (dt : PyDateTime) : String :=
  String.mk (pad4 dt.year ++ ['-'] ++ pad2 dt.month ++ ['-'] ++ pad2 dt.day
    ++ ['T'] ++ pad2 dt.hour ++ [':'] ++ pad2 dt.minute ++ [':'] ++ pad2 dt.second)

/-- `str.replace(c, '')` for a one-character pattern removes every occurrence. -/
def removeChar (c : Char) (s : String) : String := String.mk (s.data.filter (· ≠ c))

/-- `events.py` lines 104-110: convert to UTC, drop the `tzinfo`, render the ISO
second-precision timestamp, strip `'-'` and `':'`, and append `'Z'`. -/
def basic_utc_isoformat (localTz : Int) (dt : PyDateTime) : String :=
  let utc_datetime := astimezoneUTC localTz dt
  let pure_datetime := replaceTzNone utc_datetime
  let iso_timestamp := isoformatSeconds pure_datetime
  let stripped := removeChar ':' (removeChar '-' iso_timestamp)
  stripped ++ "Z"

/-! ### Errors -/

/-- The Python exceptions the embedded code can raise. -/
inductive PyError where
  | valueError (msg : String)
  | runtimeError (msg : String)
  | keyError (key : String)
  | unboundLocalError
deriving Repr, DecidableEq

/-! ### `parse_tstamp` -/

/-- Split a character list at every occurrence of the separator (the semantics of
CPython `str.split(sep)` for a one-character separator). -/
def splitOnChar (c : Char) : List Char → List (List Char)
  | [] => [[]]
  | x :: xs =>
    let r := splitOnChar c xs
    if x = c then [] :: r
    else
      match r with
      | [] => [[x]]
      | h :: t => (x :: h) :: t

/-- Value of a decimal digit character. -/
def digitVal (c : Char) : Nat := c.toNat - 48

/-- Decimal digits to a natural number. -/
def natOfDigits (l : List Char) : Nat := l.foldl (fun n c => n * 10 + digitVal c) 0

/-- A non-empty all-digit run as a number. -/
def parseDigits (l : List Char) : Option Nat :=
  if l ≠ [] ∧ l.all (·.isDigit) then some (natOfDigits l) else none

/-- `%Y` field of CPython `strptime`: exactly four digits. -/
def parseY4 (l : List Char) : Option Nat := if l.length = 4 then parseDigits l else none

/-- `%m`/`%d`/`%H`/`%M` fields of CPython `strptime`: one or two digits. -/
def parseN2 (l : List Char) : Option Nat :=
  if l.length = 1 ∨ l.length = 2 then parseDigits l else none

/-- `datetime.strptime(raw, "%Y-%m-%d %H:%M")` followed by the constructor's range
validation; the result is naive. (CPython also lets the literal space match a run
of whitespace; that laxity is not modeled.) -/
def strptimeYmdHm (raw : String) : Option PyDateTime :=
  match splitOnChar ' ' raw.data with
  | [dpart, tpart] =>
    (match splitOnChar '-' dpart, splitOnChar ':' tpart with
     | [ys, ms, ds], [hs, mins] => do
       let y ← parseY4 ys
       let mo ← parseN2 ms
       let d ← parseN2 ds
       let h ← parseN2 hs
       let mi ← parseN2 mins
       if 1 ≤ y ∧ y ≤ 9999 ∧ 1 ≤ mo ∧ mo ≤ 12 ∧ 1 ≤ d ∧ d ≤ daysInMonth y mo
           ∧ h ≤ 23 ∧ mi ≤ 59 then
         some { year := y, month := mo, day := d, hour := h, minute := mi,
                second := 0, usec := 0, tz := none }
       else none
     | _, _ => none)
  | _ => none

/-- `events.py` lines 62-73: parse a metadata timestamp field and attach the local
system zone via `.astimezone()`; on failure log field name and event title and
re-raise (modeled as a `valueError` carrying the logged field and title). -/
def parse_tstamp (localTz : Int) (metadata : List (String × String)) (field : String) :
    Except PyError PyDateTime :=
  match (metadata.lookup field).bind strptimeYmdHm with
  | some dt => .ok (astimezone localTz dt)
  | none =>
    .error (.valueError ("Unable to parse the '" ++ field ++ "' field in the event named '"
      ++ ((metadata.lookup "title").getD "") ++ "'"))

/-! ### `parse_timedelta` -/

/-- `TIME_MULTIPLIERS` keyed by the final character of a duration token. -/
def TIME_MULTIPLIERS (c : Char) : Option String :=
  if c = 'w' then some "weeks"
  else if c = 'd' then some "days"
  else if c = 'h' then some "hours"
  else if c = 'm' then some "minutes"
  else if c = 's' then some "seconds"
  else none

/-- An exact fraction with positive denominator, kept unreduced so that all
arithmetic is plain structural `Int`/`Nat` computation (the exact idealization of
the CPython float values flowing through `parse_timedelta`). -/
structure PyRat where
  num : Int
  den : Nat
deriving Repr, DecidableEq

/-- Fraction addition (denominators stay positive). -/
def PyRat.add (a b : PyRat) : PyRat := ⟨a.num * b.den + b.num * a.den, a.den * b.den⟩

/-- Multiplication of a fraction by a natural constant. -/
def PyRat.mulNat (a : PyRat) (k : Nat) : PyRat := ⟨a.num * k, a.den⟩

/-- The floor of a fraction with positive denominator (`Int` division rounds
toward negative infinity for positive divisors). -/
def PyRat.floor (a : PyRat) : Int := a.num / (a.den : Int)

/-- The keyword-argument dictionary built by `parse_timedelta`; only the five
multiplier names ever occur as keys. `none` models an absent key. -/
structure TdArgs where
  weeks : Option PyRat := none
  days : Option PyRat := none
  hours : Option PyRat := none
  minutes : Option PyRat := none
  seconds : Option PyRat := none
deriving Repr, DecidableEq

/-- `tdargs[m] = val`: dictionary assignment overwrites any earlier value. -/
def setArg (a : TdArgs) (key : String) (v : PyRat) : TdArgs :=
  if key = "weeks" then { a with weeks := some v }
  else if key = "days" then { a with days := some v }
  else if key = "hours" then { a with hours := some v }
  else if key = "minutes" then { a with minutes := some v }
  else if key = "seconds" then { a with seconds := some v }
  else a

/-- CPython `float(s)` on plain decimal literals (`[+-]? digits [. digits]?` with at
least one digit), idealized to an exact fraction. Exponent forms, `inf`/`nan`,
underscores and surrounding whitespace accepted by CPython are not modeled; IEEE-754
rounding of the parsed value is idealized away (all claims use exactly
representable magnitudes). -/
def pyFloat (s : String) : Option PyRat :=
  let l := s.data
  let sl : Int × List Char :=
    match l with
    | '+' :: rest => (1, rest)
    | '-' :: rest => (-1, rest)
    | _ => (1, l)
  let intPart := sl.2.takeWhile (·.isDigit)
  let rest := sl.2.dropWhile (·.isDigit)
  match rest with
  | [] =>
    if intPart.isEmpty then none
    else some ⟨sl.1 * natOfDigits intPart, 1⟩
  | '.' :: frac =>
    if frac.all (·.isDigit) ∧ (intPart ≠ [] ∨ frac ≠ []) then
      some ⟨sl.1 * (natOfDigits intPart * 10 ^ frac.length + natOfDigits frac),
            10 ^ frac.length⟩
    else none
  | _ => none

/-- Loop body of `parse_timedelta` (lines 85-98): look up the token's final
character in `TIME_MULTIPLIERS`, parse the magnitude with `float`, and assign into
the dictionary; unknown multiplier raises `RuntimeError`, bad magnitude
`ValueError`. (`str.split` never yields an empty token, so the `getD` fallback for
an empty token is unreachable.) -/
def parseChunk (a : TdArgs) (c : String) : Except PyError TdArgs :=
  match TIME_MULTIPLIERS ((c.data.getLast?).getD ' ') with
  | none => .error (.runtimeError ("Unknown time multiplier '" ++ c ++ "'"))
  | some m =>
    match pyFloat (String.mk c.data.dropLast) with
    | none => .error (.valueError ("Unable to parse '" ++ c ++ "'"))
    | some v => .ok (setArg a m v)

/-- Split a character list at every whitespace character. -/
def splitWsRaw : List Char → List (List Char)
  | [] => [[]]
  | x :: xs =>
    let r := splitWsRaw xs
    if x.isWhitespace then [] :: r
    else
      match r with
      | [] => [[x]]
      | h :: t => (x :: h) :: t

/-- CPython `str.split()` with no separator: split on whitespace runs, dropping
empty pieces. -/
def splitWhitespace (s : String) : List String :=
  ((splitWsRaw s.data).map String.mk).filter (· ≠ "")

/-- Total seconds of the keyword arguments, absent keys defaulting to zero. -/
def totalSecondsVal (a : TdArgs) : PyRat :=
  ((((a.weeks.getD ⟨0, 1⟩).mulNat 604800).add
    ((a.days.getD ⟨0, 1⟩).mulNat 86400)).add
    ((a.hours.getD ⟨0, 1⟩).mulNat 3600)).add
    (((a.minutes.getD ⟨0, 1⟩).mulNat 60).add (a.seconds.getD ⟨0, 1⟩))

/-- Round to the nearest integer, ties to even (CPython's `timedelta` rounding);
the fraction's denominator is positive by construction. -/
def roundHalfEven (x : PyRat) : Int :=
  let f := x.floor
  let rem := x.num - f * x.den
  if 2 * rem < (x.den : Int) then f
  else if (x.den : Int) < 2 * rem then f + 1
  else if f % 2 = 0 then f else f + 1

/-- `timedelta(**tdargs)` as a count of microseconds. -/
def timedeltaOf (a : TdArgs) : Int := roundHalfEven ((totalSecondsVal a).mulNat 1000000)

/-- The chunk loop of lines 85-98, threading the dictionary. -/
def parseChunks (a : TdArgs) : List String → Except PyError TdArgs
  | [] => .ok a
  | c :: cs =>
    match parseChunk a c with
    | .error e => .error e
    | .ok a2 => parseChunks a2 cs

/-- The chunk loop of `parse_timedelta` followed by `timedelta(**tdargs)`. -/
def parse_timedelta_chunks (chunks : List String) : Except PyError Int :=
  match parseChunks {} chunks with
  | .error e => .error e
  | .ok a => .ok (timedeltaOf a)

/-- `events.py` lines 76-101: parse the `event-duration` metadata field. A missing
field raises `KeyError` (the callers guard against this). -/
def parse_timedelta (metadata : List (String × String)) : Except PyError Int :=
  match metadata.lookup "event-duration" with
  | none => .error (.keyError "event-duration")
  | some s => parse_timedelta_chunks (splitWhitespace s)

/-! ### Event records and `parse_article` -/

/-- The `event_plugin_data` attribute attached to a content object. -/
structure EventPluginData where
  dtstart : PyDateTime
  dtend : PyDateTime
deriving Repr, DecidableEq

/-- The slots of a Pelican content object (or of the synthesized `AttributeDict`
standing in for one) that `events.py` reads: the URL, the string-valued metadata
entries, the `date` metadata value, and the attached `event_plugin_data`. -/
structure PEvent where
  url : String
  fields : List (String × String)
  date : PyDateTime
  event_plugin_data : EventPluginData
deriving Repr, DecidableEq

/-- A content object before the plugin has attached any event data. -/
structure Article where
  isArticle : Bool
  url : String
  fields : List (String × String)
  date : PyDateTime
deriving Repr, DecidableEq

/-- The record persisted for a content object once start and end are resolved. -/
def articleRecord (content : Article) (data : EventPluginData) : PEvent :=
  { url := content.url, fields := content.fields, date := content.date,
    event_plugin_data := data }

/-- The `ValueError` message of `parse_article` when neither `event-end` nor
`event-duration` is given (the typo is the source's). -/
def missingEndMsg (content : Article) : String :=
  "Either 'event-end' or 'event-duration' must be speciefied in the event named '"
    ++ ((content.fields.lookup "title").getD "") ++ "'"

/-- Lines 126-137: resolve the end timestamp, preferring an explicit `event-end`
field, then `event-duration`, else raising. -/
def resolveEnd (localTz : Int) (content : Article) (dtstart : PyDateTime) :
    Except PyError PyDateTime :=
  if (content.fields.lookup "event-end").isSome then
    parse_tstamp localTz content.fields "event-end"
  else if (content.fields.lookup "event-duration").isSome then
    match parse_timedelta content.fields with
    | .error e => .error e
    | .ok td => .ok (addTimedelta dtstart td)
  else .error (.valueError (missingEndMsg content))

/-- `events.py` lines 113-142: skip non-articles and items without `event-start`;
resolve start and end; attach `event_plugin_data`; append non-draft records to the
collection. The returned pair is the new collection and the attached data. -/
def parse_article (localTz : Int) (content : Article) (events : List PEvent) :
    Except PyError (List PEvent × Option EventPluginData) :=
  if content.isArticle = false then .ok (events, none)
  else if (content.fields.lookup "event-start") = none then .ok (events, none)
  else
    match parse_tstamp localTz content.fields "event-start" with
    | .error e => .error e
    | .ok dtstart =>
      match resolveEnd localTz content dtstart with
      | .error e => .error e
      | .ok dtend =>
        let data : EventPluginData := ⟨dtstart, dtend⟩
        if content.fields.lookup "status" ≠ some "draft"
        then .ok (events ++ [articleRecord content data], some data)
        else .ok (events, some data)

/-- The collection after a `parse_article` run: a raised exception propagates
before the `events.append` at line 142, leaving the global list unchanged. -/
def parse_article_events (localTz : Int) (content : Article) (events : List PEvent) :
    List PEvent :=
  match parse_article localTz content events with
  | .ok r => r.1
  | .error _ => events

/-! ### `insert_recurring_events` -/

/-- One configured recurring event (`PLUGIN_EVENTS['recurring_events']` entry). -/
structure RecurrenceSpec where
  recurring_rule : String
  title : String
  summary : String
  location : String
  page_url : String
  event_duration : String
deriving Repr, DecidableEq

/-- The spec entry viewed as the dictionary that `parse_timedelta` receives. -/
def specFields (s : RecurrenceSpec) : List (String × String) :=
  [("recurring_rule", s.recurring_rule), ("title", s.title), ("summary", s.summary),
   ("location", s.location), ("page_url", s.page_url),
   ("event-duration", s.event_duration)]

/-- Wrap the civil tuple produced by the black-box recurrence machinery
(`RecurringEvent` + `dateutil.rrule(...).after`). Fed a naive `datetime.now()`,
those libraries yield naive datetimes, hence `tz := none`. -/
def mkNaive : Nat × Nat × Nat × Nat × Nat × Nat → PyDateTime
  | (y, m, d, h, mi, s) => ⟨y, m, d, h, mi, s, 0, none⟩

/-- Lines 156-179 for one spec entry: compute the next occurrence after `now`
via the black-box `rruleAfter`, parse the duration, and synthesize the
`AttributeDict` record. `metadata['date']` receives the raw naive occurrence;
`dtstart`/`dtend` go through `.astimezone()`. -/
def insert_recurring_one (localTz : Int)
    (rruleAfter : String → PyDateTime → Nat × Nat × Nat × Nat × Nat × Nat)
    (now : PyDateTime) (spec : RecurrenceSpec) : Except PyError PEvent :=
  let next_occurrence := mkNaive (rruleAfter spec.recurring_rule now)
  match parse_timedelta (specFields spec) with
  | .error e => .error e
  | .ok event_duration =>
    .ok { url := "pages/" ++ spec.page_url,
          fields := [("title", spec.title), ("summary", spec.summary),
                     ("event-location", spec.location)],
          date := next_occurrence,
          event_plugin_data :=
            { dtstart := astimezone localTz next_occurrence,
              dtend := addTimedelta (astimezone localTz next_occurrence) event_duration } }

/-- The loop of lines 156-179: synthesize and append one record per spec entry,
a raised exception aborting the loop. -/
def insertRecLoop (localTz : Int)
    (rruleAfter : String → PyDateTime → Nat × Nat × Nat × Nat × Nat × Nat)
    (now : PyDateTime) : List RecurrenceSpec → List PEvent → Except PyError (List PEvent)
  | [], evs => .ok evs
  | spec :: rest, evs =>
    match insert_recurring_one localTz rruleAfter now spec with
    | .error e => .error e
    | .ok r => insertRecLoop localTz rruleAfter now rest (evs ++ [r])

/-- `events.py` lines 145-179: no-op without a `recurring_events` config key; else
append one synthesized record per spec entry, failures propagating. -/
def insert_recurring_events (localTz : Int)
    (rruleAfter : String → PyDateTime → Nat × Nat × Nat × Nat × Nat × Nat)
    (now : PyDateTime) (recurring : Option (List RecurrenceSpec))
    (events : List PEvent) : Except PyError (List PEvent) :=
  match recurring with
  | none => .ok events
  | some specs => insertRecLoop localTz rruleAfter now specs events

/-! ### `generate_localized_events` -/

/-- Append to a locale bucket, creating it on first use (`defaultdict(list)`). -/
def addLocalized (m : List (String × List PEvent)) (lang : String) (e : PEvent) :
    List (String × List PEvent) :=
  match m with
  | [] => [(lang, [e])]
  | (k, v) :: rest =>
    if k = lang then (k, v ++ [e]) :: rest else (k, v) :: addLocalized rest lang e

/-- `events.py` lines 226-237: when the i18n feature is active, bucket events by
their `lang` metadata; events without one are logged and left out of every bucket. -/
def generate_localized_events (i18nActive : Bool) (events : List PEvent) :
    List (String × List PEvent) :=
  if i18nActive then
    events.foldl (fun m e =>
      match e.fields.lookup "lang" with
      | some l => addLocalized m l e
      | none => m) []
  else []

/-! ### `generate_ical_file` -/

/-- The `PLUGIN_EVENTS` configuration dictionary; `none` for
`metadata_field_for_summary` models an absent key. -/
structure PluginSettings where
  ics_fname : String
  metadata_field_for_summary : Option String
  recurring : Option (List RecurrenceSpec)
deriving Repr

/-- The Pelican settings the exporter reads. -/
structure GenSettings where
  plugin : PluginSettings
  DEFAULT_LANG : String
  SITEURL : String
deriving Repr

/-- One emitted `VEVENT` component. -/
structure ICalEvent where
  summary : String
  dtstart : String
  dtend : String
  dtstamp : String
  priority : Nat
  uid : String
  location : Option String
deriving Repr, DecidableEq

/-- The emitted calendar document. -/
structure ICal where
  prodid : String
  version : String
  components : List ICalEvent
deriving Repr, DecidableEq

/-- Lines 190-194: the local summary-field variable is assigned only when the
configuration key is present; when the key is absent, line 193 reads the unbound
local and CPython raises `UnboundLocalError`. A present-but-falsy value (empty
string) falls back to `"summary"`. -/
def resolve_summary_field (metadata_field_for_summary : Option String) :
    Except PyError String :=
  match metadata_field_for_summary with
  | none => .error .unboundLocalError
  | some s => .ok (if s = "" then "summary" else s)

/-- `e.metadata[k]` on the string-valued metadata: `KeyError` when absent. -/
def lookupMeta (e : PEvent) (k : String) : Except PyError String :=
  match e.fields.lookup k with
  | some v => .ok v
  | none => .error (.keyError k)

/-- Lines 209-218: build one `VEVENT` from a selected record. `strip` is the
black-box HTML tag stripper. -/
def make_icalendar_event (strip : String → String) (localTz : Int)
    (siteurl field : String) (e : PEvent) : Except PyError ICalEvent :=
  match lookupMeta e field with
  | .error err => .error err
  | .ok s =>
    .ok { summary := strip s,
          dtstart := basic_utc_isoformat localTz e.event_plugin_data.dtstart,
          dtend := basic_utc_isoformat localTz e.event_plugin_data.dtend,
          dtstamp := basic_utc_isoformat localTz e.date,
          priority := 5,
          uid := siteurl ++ e.url,
          location := e.fields.lookup "event-location" }

/-- Line 204: the flat list when no localized buckets exist, else the default
language's bucket — `localized_events` is a `defaultdict(list)`, so a missing
default-language key yields the empty list rather than `KeyError`. -/
def curr_events (DEFAULT_LANG : String) (events : List PEvent)
    (localized : List (String × List PEvent)) : List PEvent :=
  if localized = [] then events else (localized.lookup DEFAULT_LANG).getD []

/-- Line 206: keep the records whose `dtstart` is at or after
`datetime.now().astimezone()`. -/
def generate_ical_filter (localTz : Int) (now : PyDateTime) (evs : List PEvent) :
    List PEvent :=
  evs.filter (fun x => pyLe (astimezone localTz now) x.event_plugin_data.dtstart)

/-- `events.py` lines 182-223. Returns `none` for an unset/empty output filename
(no-op), else the calendar document written to disk (file IO itself is out of
scope). `now` is the naive local `datetime.now()` at export time. -/
def generate_ical_file (strip : String → String) (localTz : Int) (now : PyDateTime)
    (settings : GenSettings) (events : List PEvent)
    (localized : List (String × List PEvent)) : Except PyError (Option ICal) :=
  if settings.plugin.ics_fname = "" then .ok none
  else
    match resolve_summary_field settings.plugin.metadata_field_for_summary with
    | .error e => .error e
    | .ok field =>
      match (generate_ical_filter localTz now
          (curr_events settings.DEFAULT_LANG events localized)).mapM
          (make_icalendar_event strip localTz settings.SITEURL field) with
      | .error e => .error e
      | .ok comps =>
        .ok (some { prodid := "-//My calendar product//mxm.dk//", version := "2.0",
                    components := comps })

/-! ### `populate_context_variables` -/

/-- The `(start, end)` sort key, as the instants CPython compares. -/
def eventsKey (e : PEvent) : Int × Int :=
  (instantMicros e.event_plugin_data.dtstart, instantMicros e.event_plugin_data.dtend)

/-- Lexicographic order on key pairs (CPython tuple comparison of datetimes). -/
def pairLe (a b : Int × Int) : Bool :=
  decide (a.1 < b.1) || (decide (a.1 = b.1) && decide (a.2 ≤ b.2))

/-- `a` sorts no later than `b` under the `(dtstart, dtend)` key. -/
def keyLe (a b : PEvent) : Bool := pairLe (eventsKey a) (eventsKey b)

/-- Line 243: keep events whose `dtend.date()` is on or after `now.date()`. -/
def filter_future (now : PyDateTime) (ev : PEvent) : Bool :=
  dateLe (dateTriple now) (dateTriple ev.event_plugin_data.dtend)

/-- The two template context variables. -/
structure TemplateVars where
  events_list : List PEvent
  upcoming_events_list : List PEvent
deriving Repr, DecidableEq

/-- `events.py` lines 240-249 (flat branch): `sorted(..., reverse=True, key=...)`
and `sorted(filter(...), key=...)`. CPython's sort is a stable merge sort; with
`reverse=True` it keeps equal-key elements in input order, which is exactly a
stable sort under the flipped key relation. -/
def populate_context_variables (now : PyDateTime) (events : List PEvent) :
    TemplateVars :=
  { events_list := events.mergeSort (fun a b => keyLe b a),
    upcoming_events_list := (events.filter (filter_future now)).mergeSort keyLe }

/-- Lines 250-257: the localized branch applies the same two sorts per bucket. -/
def populate_context_variables_loc (now : PyDateTime)
    (localized : List (String × List PEvent)) : List (String × TemplateVars) :=
  localized.map (fun kv => (kv.1, populate_context_variables now kv.2))

/-! ### Auxiliary definitions used by the statements -/

/-- A valid CPython `date` triple (the constructor's range check). -/
def ValidDate (y m d : Nat) : Prop :=
  1 ≤ y ∧ 1 ≤ m ∧ m ≤ 12 ∧ 1 ≤ d ∧ d ≤ daysInMonth y m

instance (y m d : Nat) : Decidable (ValidDate y m d) := by
  unfold ValidDate; infer_instance

/-- The datetime's own wall-clock date as a calendar ordinal. -/
def dateOrdinal (dt : PyDateTime) : Nat := ymd2ord dt.year dt.month dt.day

/-- Modelled from the spec: the `YYYYMMDDTHHMMSSZ` basic UTC form assembled
directly from the fields of the UTC conversion, for comparison with the
code's strip-the-separators construction. -/
def spec_basic_utc (localTz : Int) (dt : PyDateTime) : String :=
  let u := astimezoneUTC localTz dt
  String.mk (pad4 u.year ++ pad2 u.month ++ pad2 u.day ++ ['T']
    ++ pad2 u.hour ++ pad2 u.minute ++ pad2 u.second) ++ "Z"

/-- The publish timestamp's zone slot, for stating awareness facts. -/
def publishTz (e : PEvent) : Option Int := e.date.tz

/-- 2024-03-01 09:00 in UTC-5, the spec's serialization example. -/
def c7dt : PyDateTime := ⟨2024, 3, 1, 9, 0, 0, 0, some (-300)⟩

/-- A concrete recurrence black box: every rule's next occurrence is
2030-01-05 10:00 (naive, as `dateutil` yields over a naive `now`). -/
def recOcc : String → PyDateTime → Nat × Nat × Nat × Nat × Nat × Nat :=
  fun _ _ => (2030, 1, 5, 10, 0, 0)

/-- A concrete recurring-event configuration entry. -/
def recSpec : RecurrenceSpec :=
  { recurring_rule := "every saturday", title := "Weekly meetup",
    summary := "Meetup", location := "Town hall", page_url := "meetup.html",
    event_duration := "1h" }

/-- A concrete naive local `datetime.now()`: 2025-06-01 12:00. -/
def nowNaive : PyDateTime := ⟨2025, 6, 1, 12, 0, 0, 0, none⟩

/-- A concrete event record with past start and future end (relative to
`nowNaive` in UTC): start 2025-06-01 08:00+00:00, end 2025-06-02 10:00+00:00. -/
def evPastStart : PEvent :=
  { url := "past-start.html",
    fields := [("title", "Past start"), ("summary", "S")],
    date := ⟨2025, 5, 1, 0, 0, 0, 0, some 0⟩,
    event_plugin_data :=
      { dtstart := ⟨2025, 6, 1, 8, 0, 0, 0, some 0⟩,
        dtend := ⟨2025, 6, 2, 10, 0, 0, 0, some 0⟩ } }

/-- A concrete event record with future start: 2025-06-02 09:00+00:00. -/
def evFutureStart : PEvent :=
  { url := "future-start.html",
    fields := [("title", "Future start"), ("summary", "S")],
    date := ⟨2025, 5, 1, 0, 0, 0, 0, some 0⟩,
    event_plugin_data :=
      { dtstart := ⟨2025, 6, 2, 9, 0, 0, 0, some 0⟩,
        dtend := ⟨2025, 6, 2, 11, 0, 0, 0, some 0⟩ } }

/-- A configuration whose `PLUGIN_EVENTS` lacks the `metadata_field_for_summary`
key but names an output file. -/
def settingsNoSummaryKey : GenSettings :=
  { plugin := { ics_fname := "calendar.ics", metadata_field_for_summary := none,
                recurring := none },
    DEFAULT_LANG := "en", SITEURL := "https://example.org/" }

/-- A configuration carrying the summary key, for the localized-export scenario. -/
def settingsWithSummaryKey : GenSettings :=
  { plugin := { ics_fname := "calendar.ics", metadata_field_for_summary := some "summary",
                recurring := none },
    DEFAULT_LANG := "en", SITEURL := "https://example.org/" }

/-- A concrete article carrying `event-start` and an explicit `event-end`
(and also a duration, which must then be ignored). -/
def artExplicitEnd : Article :=
  { isArticle := true, url := "a.html",
    fields := [("title", "A"), ("event-start", "2030-01-01 10:00"),
               ("event-end", "2030-01-01 12:30"), ("event-duration", "5h")],
    date := ⟨2029, 12, 1, 0, 0, 0, 0, some 0⟩ }

/-- A concrete article carrying `event-start` and only a duration. -/
def artDurationEnd : Article :=
  { isArticle := true, url := "b.html",
    fields := [("title", "B"), ("event-start", "2030-01-01 10:00"),
               ("event-duration", "1h 30m")],
    date := ⟨2029, 12, 1, 0, 0, 0, 0, some 0⟩ }

/-- A concrete article carrying `event-start` and neither end nor duration. -/
def artNoEnd : Article :=
  { isArticle := true, url := "c.html",
    fields := [("title", "C"), ("event-start", "2030-01-01 10:00")],
    date := ⟨2029, 12, 1, 0, 0, 0, 0, some 0⟩ }

/-- `evPastStart` tagged with a `lang` of `"de"`, for the localized scenarios. -/
def evDE : PEvent :=
  { evPastStart with fields := evPastStart.fields ++ [("lang", "de")] }

/-- The calendar document with zero components. -/
def calEmpty : ICal :=
  { prodid := "-//My calendar product//mxm.dk//", version := "2.0", components := [] }

/-- The parsed start of `"2030-01-01 10:00"` under local offset 0. -/
def adts : PyDateTime := ⟨2030, 1, 1, 10, 0, 0, 0, some 0⟩

/-- The parsed end of `"2030-01-01 12:30"` under local offset 0. -/
def adte : PyDateTime := ⟨2030, 1, 1, 12, 30, 0, 0, some 0⟩

/-- The record `insert_recurring_events` synthesizes from `recSpec` via `recOcc`
under local offset 0. -/
def recRecord : PEvent :=
  { url := "pages/meetup.html",
    fields := [("title", "Weekly meetup"), ("summary", "Meetup"),
               ("event-location", "Town hall")],
    date := ⟨2030, 1, 5, 10, 0, 0, 0, none⟩,
    event_plugin_data :=
      { dtstart := ⟨2030, 1, 5, 10, 0, 0, 0, some 0⟩,
        dtend := ⟨2030, 1, 5, 11, 0, 0, 0, some 0⟩ } }

/-! ### Calendar-order lemmas -/

theorem isLeap_iff (y : Nat) :
    isLeap y = true ↔ (y % 4 = 0 ∧ (¬ y % 100 = 0 ∨ y % 400 = 0)) := by
  simp [isLeap]

set_option maxHeartbeats 1000000 in
theorem daysBeforeYear_succ (y : Nat) (h : 1 ≤ y) :
    daysBeforeYear (y+1)
      = daysBeforeYear y + 365 + (if isLeap y = true then 1 else 0) := by
  rw [show (if isLeap y = true then (1:Nat) else 0)
        = if y % 4 = 0 ∧ (¬ y % 100 = 0 ∨ y % 400 = 0) then 1 else 0 by
      simp [isLeap_iff]]
  unfold daysBeforeYear
  by_cases h4 : y % 4 = 0 <;> by_cases h100 : y % 100 = 0 <;> by_cases h400 : y % 400 = 0 <;>
    simp only [h4, h100, h400] <;> simp <;> omega

theorem daysBeforeYear_mono {y y' : Nat} (h1 : 1 ≤ y) (h : y ≤ y') :
    daysBeforeYear y ≤ daysBeforeYear y' := by
  induction h with
  | refl => exact Nat.le_refl _
  | @step m hm ih =>
    have hs := daysBeforeYear_succ m (Nat.le_trans h1 hm)
    have ih' := ih
    show daysBeforeYear y ≤ daysBeforeYear (m + 1)
    omega

theorem monthSpanBound :
    ∀ L : Bool, ∀ m < 13, 1 ≤ m →
      daysBeforeMonthL L m + daysInMonthL L m ≤ 365 + (if L = true then 1 else 0) := by
  decide

theorem monthSpanMono :
    ∀ L : Bool, ∀ m1 < 13, ∀ m2 < 13, 1 ≤ m1 → m1 < m2 →
      daysBeforeMonthL L m1 + daysInMonthL L m1 ≤ daysBeforeMonthL L m2 := by
  decide

theorem ymd2ord_lt_of_lex {y1 m1 d1 y2 m2 d2 : Nat}
    (hv1 : ValidDate y1 m1 d1) (hv2 : ValidDate y2 m2 d2)
    (hlex : y1 < y2 ∨ (y1 = y2 ∧ (m1 < m2 ∨ (m1 = m2 ∧ d1 < d2)))) :
    ymd2ord y1 m1 d1 < ymd2ord y2 m2 d2 := by
  obtain ⟨hy1, hm1a, hm1b, hd1a, hd1b⟩ := hv1
  obtain ⟨hy2, hm2a, hm2b, hd2a, hd2b⟩ := hv2
  rcases hlex with hy | ⟨rfl, hm | ⟨rfl, hd⟩⟩
  · have hb := monthSpanBound (isLeap y1) m1 (by omega) hm1a
    have hsucc := daysBeforeYear_succ y1 hy1
    have hmono := daysBeforeYear_mono (show 1 ≤ y1 + 1 by omega)
        (Nat.succ_le_of_lt hy)
    unfold ymd2ord daysBeforeMonth daysInMonth at *
    omega
  · have hb := monthSpanMono (isLeap y1) m1 (by omega) m2 (by omega) hm1a hm
    unfold ymd2ord daysBeforeMonth daysInMonth at *
    omega
  · unfold ymd2ord; omega

theorem dateLe_iff_ord {y1 m1 d1 y2 m2 d2 : Nat}
    (hv1 : ValidDate y1 m1 d1) (hv2 : ValidDate y2 m2 d2) :
    dateLe (y1, m1, d1) (y2, m2, d2) = true
      ↔ ymd2ord y1 m1 d1 ≤ ymd2ord y2 m2 d2 := by
  simp only [dateLe, Bool.or_eq_true, Bool.and_eq_true, decide_eq_true_eq]
  constructor
  · rintro (hy | ⟨rfl, hm | ⟨rfl, hd⟩⟩)
    · exact Nat.le_of_lt (ymd2ord_lt_of_lex hv1 hv2 (Or.inl hy))
    · exact Nat.le_of_lt (ymd2ord_lt_of_lex hv1 hv2 (Or.inr ⟨rfl, Or.inl hm⟩))
    · unfold ymd2ord; omega
  · intro hord
    by_contra hc
    push_neg at hc
    have hlex : y2 < y1 ∨ (y2 = y1 ∧ (m2 < m1 ∨ (m2 = m1 ∧ d2 < d1))) := by
      obtain ⟨h1, h2⟩ := hc
      omega
    exact absurd hord (Nat.not_le_of_lt (Nat.lt_of_lt_of_le
      (ymd2ord_lt_of_lex hv2 hv1 hlex) (Nat.le_refl _)))

/-! ### Sort-key order lemmas -/

theorem pairLe_trans {a b c : Int × Int}
    (h1 : pairLe a b = true) (h2 : pairLe b c = true) : pairLe a c = true := by
  simp only [pairLe, Bool.or_eq_true, Bool.and_eq_true, decide_eq_true_eq] at *
  omega

theorem pairLe_total (a b : Int × Int) : (pairLe a b || pairLe b a) = true := by
  simp only [pairLe, Bool.or_eq_true, Bool.and_eq_true, decide_eq_true_eq]
  omega

theorem pairLe_refl (a : Int × Int) : pairLe a a = true := by
  simp [pairLe]

theorem keyLe_trans {a b c : PEvent}
    (h1 : keyLe a b = true) (h2 : keyLe b c = true) : keyLe a c = true :=
  pairLe_trans h1 h2

theorem keyLe_total (a b : PEvent) : (keyLe a b || keyLe b a) = true :=
  pairLe_total _ _

/-! ### Dictionary-assignment lemma -/

theorem setArg_overwrite (a : TdArgs) (key : String) (v v' : PyRat) :
    setArg (setArg a key v) key v' = setArg a key v' := by
  unfold setArg
  split_ifs <;> rfl

/-! ### Digit and separator lemmas -/

theorem digitChar_not_sep (n : Nat) : digitChar n ≠ '-' ∧ digitChar n ≠ ':' := by
  have hb : ∀ r < 10, Char.ofNat (48 + r) ≠ '-' ∧ Char.ofNat (48 + r) ≠ ':' := by decide
  have h : n % 10 < 10 := Nat.mod_lt _ (by norm_num)
  simpa [digitChar] using hb (n % 10) h

theorem filter_pad2 (c : Char) (h : ∀ k : Nat, digitChar k ≠ c) (n : Nat) :
    (pad2 n).filter (· ≠ c) = pad2 n := by
  simp [pad2, h]

theorem filter_pad4 (c : Char) (h : ∀ k : Nat, digitChar k ≠ c) (n : Nat) :
    (pad4 n).filter (· ≠ c) = pad4 n := by
  simp [pad4, h]

/-! ### Zone-slot lemmas -/

theorem addTimedelta_tz (dt : PyDateTime) (td : Int) :
    (addTimedelta dt td).tz = dt.tz := rfl

theorem astimezone_tz (localTz : Int) (dt : PyDateTime) :
    (astimezone localTz dt).tz = some localTz := by
  cases h : dt.tz <;> simp [astimezone, h, fromWallMicros]

theorem parse_tstamp_tz {localTz : Int} {md : List (String × String)} {f : String}
    {dt : PyDateTime} (h : parse_tstamp localTz md f = .ok dt) :
    dt.tz = some localTz := by
  unfold parse_tstamp at h
  cases hb : (md.lookup f).bind strptimeYmdHm with
  | none => rw [hb] at h; exact absurd h (by simp)
  | some dt0 =>
    rw [hb] at h
    have : astimezone localTz dt0 = dt := by
      simpa using h
    rw [← this]
    exact astimezone_tz localTz dt0

/-! ### Construction lemmas for the awareness invariant -/

theorem insert_one_props {localTz : Int}
    {rruleAfter : String → PyDateTime → Nat × Nat × Nat × Nat × Nat × Nat}
    {now : PyDateTime} {spec : RecurrenceSpec} {r : PEvent}
    (h : insert_recurring_one localTz rruleAfter now spec = .ok r) :
    (r.event_plugin_data.dtstart).tz = some localTz ∧
    (r.event_plugin_data.dtend).tz = some localTz ∧ publishTz r = none := by
  unfold insert_recurring_one at h
  cases hp : parse_timedelta (specFields spec) with
  | error e => rw [hp] at h; exact absurd h (by simp)
  | ok td =>
    rw [hp] at h
    obtain rfl : _ = r := by simpa using h
    refine ⟨astimezone_tz _ _, ?_, ?_⟩
    · show (addTimedelta (astimezone localTz _) td).tz = some localTz
      rw [addTimedelta_tz]; exact astimezone_tz _ _
    · cases hm : rruleAfter spec.recurring_rule now with
      | mk y rest => simp [publishTz, mkNaive, hm]

theorem insertRecLoop_mem {localTz : Int}
    {rruleAfter : String → PyDateTime → Nat × Nat × Nat × Nat × Nat × Nat}
    {now : PyDateTime} :
    ∀ (specs : List RecurrenceSpec) (events out : List PEvent),
      insertRecLoop localTz rruleAfter now specs events = .ok out →
      ∀ e ∈ out, e ∈ events ∨
        ((e.event_plugin_data.dtstart).tz = some localTz ∧
         (e.event_plugin_data.dtend).tz = some localTz ∧ publishTz e = none) := by
  intro specs
  induction specs with
  | nil =>
    intro events out h e he
    obtain rfl : events = out := by simpa [insertRecLoop] using h
    exact Or.inl he
  | cons s ss ih =>
    intro events out h e he
    unfold insertRecLoop at h
    cases h1 : insert_recurring_one localTz rruleAfter now s with
    | error err => rw [h1] at h; exact absurd h (by simp)
    | ok r =>
      rw [h1] at h
      rcases ih (events ++ [r]) out h e he with hmem | hprops
      · rcases List.mem_append.mp hmem with hl | hr
        · exact Or.inl hl
        · obtain rfl : e = r := by simpa using hr
          exact Or.inr (insert_one_props h1)
      · exact Or.inr hprops

theorem resolveEnd_tz {localTz : Int} {content : Article}
    {dtstart dtend : PyDateTime}
    (h : resolveEnd localTz content dtstart = .ok dtend) :
    dtend.tz = some localTz ∨ dtend.tz = dtstart.tz := by
  unfold resolveEnd at h
  split at h
  · exact Or.inl (parse_tstamp_tz h)
  · split at h
    · cases hp : parse_timedelta content.fields with
      | error e => rw [hp] at h; exact absurd h (by simp)
      | ok td =>
        rw [hp] at h
        obtain rfl : _ = dtend := by simpa using h
        exact Or.inr (addTimedelta_tz _ _)
    · exact absurd h (by simp)

theorem parse_article_new_aware {localTz : Int} {content : Article}
    {events : List PEvent} {out : List PEvent × Option EventPluginData}
    (h : parse_article localTz content events = .ok out) :
    ∀ e ∈ out.1, e ∈ events ∨
      ((e.event_plugin_data.dtstart).tz = some localTz ∧
       (e.event_plugin_data.dtend).tz = some localTz) := by
  intro e he
  unfold parse_article at h
  split at h
  · obtain rfl : (events, (none : Option EventPluginData)) = out := by simpa using h
    exact Or.inl he
  · split at h
    · obtain rfl : (events, (none : Option EventPluginData)) = out := by simpa using h
      exact Or.inl he
    · split at h
      · exact absurd h (by simp)
      · rename_i dtstart hs
        split at h
        · exact absurd h (by simp)
        · rename_i dtend hrend
          have hst : dtstart.tz = some localTz := parse_tstamp_tz hs
          have hen : dtend.tz = some localTz := by
            rcases resolveEnd_tz hrend with h1 | h2
            · exact h1
            · rw [h2, hst]
          split at h
          · obtain rfl : _ = out := by simpa using h
            rcases List.mem_append.mp he with hl | hr
            · exact Or.inl hl
            · obtain rfl : e = articleRecord content ⟨dtstart, dtend⟩ := by simpa using hr
              exact Or.inr ⟨hst, hen⟩
          · obtain rfl : _ = out := by simpa using h
            exact Or.inl he

/-! ### Locale-bucket lemmas -/

theorem addLocalized_lookup_other {lang L : String} (hne : lang ≠ L)
    (m : List (String × List PEvent)) (e : PEvent) :
    (addLocalized m lang e).lookup L = m.lookup L := by
  induction m with
  | nil =>
    have hb : (L == lang) = false := beq_eq_false_iff_ne.mpr (Ne.symm hne)
    simp [addLocalized, List.lookup, hb]
  | cons kv rest ih =>
    obtain ⟨k, v⟩ := kv
    by_cases hk : k = lang
    · have hb : (L == k) = false := by
        rw [beq_eq_false_iff_ne, hk]
        exact Ne.symm hne
      simp only [addLocalized, if_pos hk, List.lookup, hb]
    · simp only [addLocalized, if_neg hk, List.lookup]
      cases hLk : (L == k) <;> simp [ih]

theorem localized_fold_lookup_none {L : String} :
    ∀ (evs : List PEvent) (m : List (String × List PEvent)),
      (∀ e ∈ evs, e.fields.lookup "lang" ≠ some L) → m.lookup L = none →
      (evs.foldl (fun m e =>
        match e.fields.lookup "lang" with
        | some l => addLocalized m l e
        | none => m) m).lookup L = none := by
  intro evs
  induction evs with
  | nil => intro m _ hm; simpa using hm
  | cons e es ih =>
    intro m h hm
    simp only [List.foldl_cons]
    refine ih _ (fun x hx => h x (List.mem_cons_of_mem _ hx)) ?_
    cases hl : e.fields.lookup "lang" with
    | none => exact hm
    | some l =>
      have hne : l ≠ L := by
        intro heq
        exact (h e (List.mem_cons_self _ _)) (by rw [hl, heq])
      exact (addLocalized_lookup_other hne m e).trans hm

theorem generate_localized_lookup_none {events : List PEvent} {L : String}
    (h : ∀ e ∈ events, e.fields.lookup "lang" ≠ some L) :
    (generate_localized_events true events).lookup L = none := by
  unfold generate_localized_events
  rw [if_pos rfl]
  exact localized_fold_lookup_none events [] h rfl

/-! ### Stability of the sorted views -/

theorem mergeSort_filter_key (le : PEvent → PEvent → Bool)
    (htrans : ∀ a b c, le a b = true → le b c = true → le a c = true)
    (htotal : ∀ a b, (le a b || le b a) = true)
    (hkey : ∀ a b, eventsKey a = eventsKey b → le a b = true)
    (l : List PEvent) (k : Int × Int) :
    (l.mergeSort le).filter (fun e => decide (eventsKey e = k))
      = l.filter (fun e => decide (eventsKey e = k)) := by
  set p : PEvent → Bool := fun e => decide (eventsKey e = k) with hp
  have hsub : List.Sublist (l.filter p) l := List.filter_sublist l
  have hmemkey : ∀ a ∈ l.filter p, eventsKey a = k := by
    intro a ha
    have h2 := (List.mem_filter.mp ha).2
    simpa [hp] using h2
  have hpair : (l.filter p).Pairwise (fun a b => le a b = true) :=
    List.pairwise_of_forall_mem_list (fun a ha b hb =>
      hkey a b ((hmemkey a ha).trans (hmemkey b hb).symm))
  have hstab : List.Sublist (l.filter p) (l.mergeSort le) :=
    List.sublist_mergeSort htrans htotal hpair hsub
  have hself : (l.filter p).filter p = l.filter p :=
    List.filter_eq_self.mpr (fun a ha => (List.mem_filter.mp ha).2)
  have h1 : List.Sublist (l.filter p) ((l.mergeSort le).filter p) := by
    have h2 := List.Sublist.filter p hstab
    rwa [hself] at h2
  have hlen : ((l.mergeSort le).filter p).length = (l.filter p).length :=
    ((List.mergeSort_perm l le).filter p).length_eq
  exact (h1.eq_of_length hlen.symm).symm

/-! ### Claim C1 -/

/-- C1: with the `metadata_field_for_summary` key absent from `PLUGIN_EVENTS` and
a non-empty output filename, the exporter does not fall back to the `"summary"`
field: line 193 reads a local variable that is only assigned under the line-190
guard, so CPython raises `UnboundLocalError` and no calendar is produced. -/
theorem summary_field_absent_key_crashes :
    generate_ical_file id 0 nowNaive settingsNoSummaryKey [] []
      = .error .unboundLocalError := by
  rfl

/-! ### Claim C2 -/

/-- C2 counterexample: the record synthesized from `recSpec` is persisted with a
naive publish timestamp (`metadata['date']` receives the raw occurrence, with no
`.astimezone()`), contradicting "never a naive datetime". -/
theorem recurring_publish_timestamp_naive :
    insert_recurring_events 0 recOcc nowNaive (some [recSpec]) [] = .ok [recRecord]
      ∧ publishTz recRecord = none :=
  ⟨by rfl, by rfl⟩

/-- C2 (amended): every record persisted by the plugin's constructors has
timezone-aware `start` and `end`; the publish timestamp of a synthesized
recurring event, however, is the raw next occurrence and is naive. -/
theorem persisted_records_tz_amended :
    (∀ (localTz : Int)
        (rruleAfter : String → PyDateTime → Nat × Nat × Nat × Nat × Nat × Nat)
        (now : PyDateTime) (specs : List RecurrenceSpec) (events out : List PEvent),
      insert_recurring_events localTz rruleAfter now (some specs) events = .ok out →
      ∀ e ∈ out, e ∈ events ∨
        ((e.event_plugin_data.dtstart).tz = some localTz ∧
         (e.event_plugin_data.dtend).tz = some localTz ∧ publishTz e = none))
  ∧ (∀ (localTz : Int) (content : Article) (events : List PEvent)
        (out : List PEvent × Option EventPluginData),
      parse_article localTz content events = .ok out →
      ∀ e ∈ out.1, e ∈ events ∨
        ((e.event_plugin_data.dtstart).tz = some localTz ∧
         (e.event_plugin_data.dtend).tz = some localTz)) := by
  constructor
  · intro localTz rruleAfter now specs events out h
    exact insertRecLoop_mem specs events out (by simpa [insert_recurring_events] using h)
  · intro localTz content events out h
    exact parse_article_new_aware h

theorem persisted_records_tz_amended_witness :
    recRecord ∈ ([] : List PEvent) ∨
      ((recRecord.event_plugin_data.dtstart).tz = some 0 ∧
       (recRecord.event_plugin_data.dtend).tz = some 0 ∧ publishTz recRecord = none) :=
  persisted_records_tz_amended.1 0 recOcc nowNaive [recSpec] [] [recRecord]
    (by rfl) recRecord (by simp)

/-! ### Claim C4 -/

/-- C4: the rendering filter keeps a record iff the calendar ordinal of its end
date is at least the ordinal of the reference instant's date — only the date
components enter the decision, never the time of day. -/
theorem future_filter_date_semantics (now : PyDateTime) (ev : PEvent)
    (hv1 : ValidDate now.year now.month now.day)
    (hv2 : ValidDate ev.event_plugin_data.dtend.year ev.event_plugin_data.dtend.month
      ev.event_plugin_data.dtend.day) :
    (filter_future now ev = true ↔
      dateOrdinal now ≤ dateOrdinal ev.event_plugin_data.dtend)
    ∧ (∀ ev' : PEvent,
        dateTriple ev'.event_plugin_data.dtend = dateTriple ev.event_plugin_data.dtend →
        filter_future now ev' = filter_future now ev) := by
  constructor
  · unfold filter_future dateOrdinal dateTriple
    exact dateLe_iff_ord hv1 hv2
  · intro ev' hT
    unfold filter_future
    rw [hT]

theorem future_filter_date_semantics_witness : filter_future nowNaive evPastStart = true :=
  (future_filter_date_semantics nowNaive evPastStart (by decide) (by decide)).1.mpr
    (by decide)

/-! ### Claim C10 -/

/-- C10: localization is active (non-empty buckets) yet no record carries the
default language; the export still succeeds and produces the well-formed header
with zero event components. -/
theorem localized_export_empty_calendar (strip : String → String) (localTz : Int)
    (now : PyDateTime) (settings : GenSettings) (events : List PEvent)
    (hname : settings.plugin.ics_fname ≠ "")
    (hfield : settings.plugin.metadata_field_for_summary.isSome = true)
    (hactive : generate_localized_events true events ≠ [])
    (hnodefault : ∀ e ∈ events, e.fields.lookup "lang" ≠ some settings.DEFAULT_LANG) :
    generate_ical_file strip localTz now settings events
      (generate_localized_events true events) = .ok (some calEmpty) := by
  obtain ⟨s, hs⟩ := Option.isSome_iff_exists.mp hfield
  have hmiss : (generate_localized_events true events).lookup settings.DEFAULT_LANG = none :=
    generate_localized_lookup_none hnodefault
  unfold generate_ical_file
  rw [if_neg hname, hs]
  simp only [resolve_summary_field]
  unfold curr_events
  rw [if_neg hactive, hmiss]
  simp [generate_ical_filter, calEmpty, List.mapM, List.mapM.loop, pure, Except.pure]

theorem localized_export_empty_calendar_witness :
    generate_ical_file id 0 nowNaive settingsWithSummaryKey [evDE]
      (generate_localized_events true [evDE]) = .ok (some calEmpty) :=
  localized_export_empty_calendar id 0 nowNaive settingsWithSummaryKey [evDE]
    (by decide) (by rfl) (by decide) (by decide)

/-! ### Claim C3 -/

/-- C3: the export selection keeps exactly the records whose full start instant
is at or after the export-time instant (no date truncation); the components of a
successful export are exactly the images of that selection; and on a concrete
pair of records the past-start/future-end one is excluded from the export even
though the date-truncated end-based rendering filter keeps it. -/
theorem export_start_selection :
    (∀ (localTz : Int) (now : PyDateTime) (evs : List PEvent) (e : PEvent),
      e ∈ generate_ical_filter localTz now evs ↔
        e ∈ evs ∧
          instantMicros (astimezone localTz now) ≤ instantMicros e.event_plugin_data.dtstart)
  ∧ (∀ (strip : String → String) (localTz : Int) (now : PyDateTime)
        (settings : GenSettings) (events : List PEvent)
        (localized : List (String × List PEvent)) (cal : ICal) (field : String),
      generate_ical_file strip localTz now settings events localized = .ok (some cal) →
      resolve_summary_field settings.plugin.metadata_field_for_summary = .ok field →
      (generate_ical_filter localTz now
          (curr_events settings.DEFAULT_LANG events localized)).mapM
        (make_icalendar_event strip localTz settings.SITEURL field) = .ok cal.components)
  ∧ generate_ical_filter 0 nowNaive [evPastStart, evFutureStart] = [evFutureStart]
  ∧ filter_future nowNaive evPastStart = true := by
  refine ⟨?_, ?_, by rfl, by rfl⟩
  · intro localTz now evs e
    constructor
    · intro h
      have h2 := List.mem_filter.mp h
      refine ⟨h2.1, ?_⟩
      have h3 := h2.2
      simpa [pyLe] using h3
    · intro ⟨h1, h2⟩
      exact List.mem_filter.mpr ⟨h1, by simpa [pyLe] using h2⟩
  · intro strip localTz now settings events localized cal field hgen hres
    unfold generate_ical_file at hgen
    rw [hres] at hgen
    split at hgen
    · exact absurd hgen (by simp)
    · split at hgen
      · exact absurd hgen (by simp)
      · rename_i f2 hf2
        obtain rfl : field = f2 := by simpa using hf2
        split at hgen
        · exact absurd hgen (by simp)
        · rename_i comps hmap
          have hc : cal = { calEmpty with components := comps } := by
            simpa [calEmpty] using hgen.symm
          rw [hc]
          exact hmap

theorem export_start_selection_witness :
    (evFutureStart ∈ generate_ical_filter 0 nowNaive [evPastStart, evFutureStart])
    ∧ (generate_ical_filter 0 nowNaive
          (curr_events "en" ([] : List PEvent) ([] : List (String × List PEvent)))).mapM
        (make_icalendar_event id 0 "https://example.org/" "summary")
      = .ok calEmpty.components :=
  ⟨(export_start_selection.1 0 nowNaive [evPastStart, evFutureStart] evFutureStart).mpr
      ⟨by simp, by decide⟩,
   export_start_selection.2.1 id 0 nowNaive settingsWithSummaryKey [] [] calEmpty "summary"
      (by rfl) (by rfl)⟩

/-! ### Claim C5 -/

/-- C5: end resolution prefers an explicit `event-end` (any duration ignored);
else `event-duration` gives `end = start + duration`; else the construction
raises the `ValueError` naming the event and nothing is appended. -/
theorem end_resolution_preference (localTz : Int) (content : Article)
    (events : List PEvent)
    (ha : content.isArticle = true)
    (hs : (content.fields.lookup "event-start").isSome = true) :
    ((content.fields.lookup "event-end").isSome = true →
      ∀ dts dte, parse_tstamp localTz content.fields "event-start" = .ok dts →
        parse_tstamp localTz content.fields "event-end" = .ok dte →
        parse_article localTz content events =
          .ok ((if content.fields.lookup "status" ≠ some "draft"
                then events ++ [articleRecord content ⟨dts, dte⟩] else events),
               some ⟨dts, dte⟩))
  ∧ ((content.fields.lookup "event-end") = none →
      (content.fields.lookup "event-duration").isSome = true →
      ∀ dts td, parse_tstamp localTz content.fields "event-start" = .ok dts →
        parse_timedelta content.fields = .ok td →
        parse_article localTz content events =
          .ok ((if content.fields.lookup "status" ≠ some "draft"
                then events ++ [articleRecord content ⟨dts, addTimedelta dts td⟩]
                else events),
               some ⟨dts, addTimedelta dts td⟩))
  ∧ ((content.fields.lookup "event-end") = none →
      (content.fields.lookup "event-duration") = none →
      ∀ dts, parse_tstamp localTz content.fields "event-start" = .ok dts →
        parse_article localTz content events
            = .error (.valueError (missingEndMsg content))
        ∧ parse_article_events localTz content events = events) := by
  have hstart : ¬ (content.fields.lookup "event-start") = none := by
    intro hnone
    rw [hnone] at hs
    exact absurd hs (by simp)
  have hart : ¬ content.isArticle = false := by rw [ha]; simp
  refine ⟨?_, ?_, ?_⟩
  · intro hend dts dte h1 h2
    by_cases hst : content.fields.lookup "status" ≠ some "draft"
    · simp [parse_article, hart, hstart, h1, resolveEnd, hend, h2, hst]
    · simp [parse_article, hart, hstart, h1, resolveEnd, hend, h2, hst]
  · intro hend hdur dts td h1 h2
    by_cases hst : content.fields.lookup "status" ≠ some "draft"
    · simp [parse_article, hart, hstart, h1, resolveEnd, hend, hdur, h2, hst]
    · simp [parse_article, hart, hstart, h1, resolveEnd, hend, hdur, h2, hst]
  · intro hend hdur dts h1
    have hmain : parse_article localTz content events
        = .error (.valueError (missingEndMsg content)) := by
      simp [parse_article, hart, hstart, h1, resolveEnd, hend, hdur]
    refine ⟨hmain, ?_⟩
    unfold parse_article_events
    rw [hmain]

theorem end_resolution_preference_witness :
    (parse_article 0 artExplicitEnd [] =
      .ok ((if artExplicitEnd.fields.lookup "status" ≠ some "draft"
            then [] ++ [articleRecord artExplicitEnd ⟨adts, adte⟩] else []),
           some ⟨adts, adte⟩))
  ∧ (parse_article 0 artDurationEnd [] =
      .ok ((if artDurationEnd.fields.lookup "status" ≠ some "draft"
            then [] ++ [articleRecord artDurationEnd
                  ⟨adts, addTimedelta adts 5400000000⟩] else []),
           some ⟨adts, addTimedelta adts 5400000000⟩))
  ∧ (parse_article 0 artNoEnd [] = .error (.valueError (missingEndMsg artNoEnd))
      ∧ parse_article_events 0 artNoEnd [] = []) :=
  ⟨(end_resolution_preference 0 artExplicitEnd [] (by rfl) (by rfl)).1
      (by rfl) adts adte (by rfl) (by rfl),
   (end_resolution_preference 0 artDurationEnd [] (by rfl) (by rfl)).2.1
      (by rfl) (by rfl) adts 5400000000 (by rfl) (by rfl),
   (end_resolution_preference 0 artNoEnd [] (by rfl) (by rfl)).2.2
      (by rfl) (by rfl) adts (by rfl)⟩

/-! ### Claim C6 -/

/-- C6: when two duration tokens carry the same unit, the dictionary assignment
makes the later token overwrite the earlier one (never add), so the parse of the
two-token string equals the parse of the last token alone; `"1h 2h"` yields
exactly two hours, and distinct units still combine additively. -/
theorem duration_last_unit_wins (t1 t2 u : String) (v1 : PyRat)
    (h1 : TIME_MULTIPLIERS ((t1.data.getLast?).getD ' ') = some u)
    (h2 : TIME_MULTIPLIERS ((t2.data.getLast?).getD ' ') = some u)
    (hv : pyFloat (String.mk t1.data.dropLast) = some v1) :
    parse_timedelta_chunks [t1, t2] = parse_timedelta_chunks [t2]
    ∧ parse_timedelta [("event-duration", "1h 2h")] = .ok 7200000000
    ∧ parse_timedelta [("event-duration", "1h 2h")]
        = parse_timedelta [("event-duration", "2h")]
    ∧ parse_timedelta [("event-duration", "2h 30m")] = .ok 9000000000
    ∧ parse_timedelta [("event-duration", "1d 2h 3m 4s")] = .ok 93784000000 := by
  refine ⟨?_, by rfl, by rfl, by rfl, by rfl⟩
  unfold parse_timedelta_chunks
  have hc1 : parseChunk {} t1 = .ok (setArg {} u v1) := by
    unfold parseChunk; rw [h1, hv]
  have hstep : parseChunks ({} : TdArgs) [t1, t2] = parseChunks (setArg {} u v1) [t2] := by
    show (match parseChunk {} t1 with
      | Except.error e => Except.error e
      | Except.ok a2 => parseChunks a2 [t2]) = _
    rw [hc1]
  rw [hstep]
  cases hp2 : pyFloat (String.mk t2.data.dropLast) with
  | none =>
    have ha : ∀ a : TdArgs, parseChunks a [t2]
        = .error (.valueError ("Unable to parse '" ++ t2 ++ "'")) := by
      intro a
      show (match parseChunk a t2 with
        | Except.error e => Except.error e
        | Except.ok a2 => parseChunks a2 []) = _
      rw [show parseChunk a t2 = .error (.valueError ("Unable to parse '" ++ t2 ++ "'")) from by
        unfold parseChunk; rw [h2, hp2]]
    rw [ha, ha]
  | some v2 =>
    have ha : ∀ a : TdArgs, parseChunks a [t2] = .ok (setArg a u v2) := by
      intro a
      show (match parseChunk a t2 with
        | Except.error e => Except.error e
        | Except.ok a2 => parseChunks a2 []) = _
      rw [show parseChunk a t2 = .ok (setArg a u v2) from by
        unfold parseChunk; rw [h2, hp2]]
      rfl
    rw [ha, ha, setArg_overwrite]

theorem duration_last_unit_wins_witness :
    parse_timedelta_chunks ["1h", "2h"] = parse_timedelta_chunks ["2h"]
    ∧ parse_timedelta [("event-duration", "1h 2h")] = .ok 7200000000
    ∧ parse_timedelta [("event-duration", "1h 2h")]
        = parse_timedelta [("event-duration", "2h")]
    ∧ parse_timedelta [("event-duration", "2h 30m")] = .ok 9000000000
    ∧ parse_timedelta [("event-duration", "1d 2h 3m 4s")] = .ok 93784000000 :=
  duration_last_unit_wins "1h" "2h" "hours" ⟨1, 1⟩ (by rfl) (by rfl) (by rfl)

/-! ### Claim C7 -/

/-- C7 counterexample: stripping the `'-'` and `':'` separators leaves the `'T'`
date/time separator in place, so the spec's example instant does not serialize
to the claimed `"20240301140000Z"`. -/
theorem basic_utc_example_not_claimed_string :
    basic_utc_isoformat 0 c7dt ≠ "20240301140000Z" := by decide

/-- C7 (amended): the serialization is the ISO-8601 second-precision timestamp of
the UTC conversion with every '-' and ':' removed and 'Z' appended — equivalently
the direct `YYYYMMDDTHHMMSSZ` assembly with the 'T' retained; the example instant
2024-03-01 09:00 UTC-5 serializes to "20240301T140000Z". -/
theorem basic_utc_serialization (localTz : Int) (dt : PyDateTime)
    (h : dt.tz.isSome = true) :
    basic_utc_isoformat localTz dt = spec_basic_utc localTz dt
    ∧ basic_utc_isoformat 0 c7dt = "20240301T140000Z" := by
  refine ⟨?_, by decide⟩
  have hdash : ∀ k : Nat, digitChar k ≠ '-' := fun k => (digitChar_not_sep k).1
  have hcolon : ∀ k : Nat, digitChar k ≠ ':' := fun k => (digitChar_not_sep k).2
  unfold basic_utc_isoformat spec_basic_utc
  generalize astimezoneUTC localTz dt = u
  show String.mk (((pad4 u.year ++ ['-'] ++ pad2 u.month ++ ['-'] ++ pad2 u.day
        ++ ['T'] ++ pad2 u.hour ++ [':'] ++ pad2 u.minute ++ [':'] ++ pad2 u.second).filter
          (fun x => decide (x ≠ '-'))).filter (fun x => decide (x ≠ ':')))
      ++ "Z"
    = String.mk (pad4 u.year ++ pad2 u.month ++ pad2 u.day ++ ['T']
        ++ pad2 u.hour ++ pad2 u.minute ++ pad2 u.second) ++ "Z"
  have l1 : List.filter (fun x => decide (x ≠ '-')) ['-'] = [] := rfl
  have l2 : List.filter (fun x => decide (x ≠ '-')) ['T'] = ['T'] := rfl
  have l3 : List.filter (fun x => decide (x ≠ '-')) [':'] = [':'] := rfl
  have l4 : List.filter (fun x => decide (x ≠ ':')) [':'] = [] := rfl
  have l5 : List.filter (fun x => decide (x ≠ ':')) ['T'] = ['T'] := rfl
  have p2d : ∀ n, List.filter (fun x => decide (x ≠ '-')) (pad2 n) = pad2 n :=
    filter_pad2 '-' hdash
  have p4d : ∀ n, List.filter (fun x => decide (x ≠ '-')) (pad4 n) = pad4 n :=
    filter_pad4 '-' hdash
  have p2c : ∀ n, List.filter (fun x => decide (x ≠ ':')) (pad2 n) = pad2 n :=
    filter_pad2 ':' hcolon
  have p4c : ∀ n, List.filter (fun x => decide (x ≠ ':')) (pad4 n) = pad4 n :=
    filter_pad4 ':' hcolon
  simp only [List.filter_append, l1, l2, l3, l4, l5, p2d, p4d, p2c, p4c,
    List.append_nil, List.nil_append]

theorem basic_utc_serialization_witness :
    basic_utc_isoformat 0 c7dt = spec_basic_utc 0 c7dt
    ∧ basic_utc_isoformat 0 c7dt = "20240301T140000Z" :=
  basic_utc_serialization 0 c7dt (by rfl)

/-! ### Claim C8 -/

/-- C8: both rendering views are ordered by the pair key `(dtstart, dtend)`, and
each sort is stable: restricted to any one key value, the output lists the same
records in the same order as the (filtered) input collection. -/
theorem sorted_views_by_key_stable (now : PyDateTime) (events : List PEvent) :
    ((populate_context_variables now events).upcoming_events_list).Pairwise
        (fun a b => keyLe a b = true)
  ∧ ((populate_context_variables now events).events_list).Pairwise
        (fun a b => keyLe b a = true)
  ∧ (∀ k : Int × Int,
      ((populate_context_variables now events).upcoming_events_list).filter
          (fun e => decide (eventsKey e = k))
        = (events.filter (filter_future now)).filter
            (fun e => decide (eventsKey e = k)))
  ∧ (∀ k : Int × Int,
      ((populate_context_variables now events).events_list).filter
          (fun e => decide (eventsKey e = k))
        = events.filter (fun e => decide (eventsKey e = k))) := by
  have htrans : ∀ a b c : PEvent, keyLe a b = true → keyLe b c = true →
      keyLe a c = true := fun a b c h1 h2 => keyLe_trans h1 h2
  have htotal : ∀ a b : PEvent, (keyLe a b || keyLe b a) = true := keyLe_total
  have htransR : ∀ a b c : PEvent, keyLe b a = true → keyLe c b = true →
      keyLe c a = true := fun a b c h1 h2 => keyLe_trans h2 h1
  have htotalR : ∀ a b : PEvent, ((fun a b => keyLe b a) a b
      || (fun a b => keyLe b a) b a) = true := by
    intro a b
    show (keyLe b a || keyLe a b) = true
    rw [Bool.or_comm]
    exact keyLe_total a b
  have hkeyA : ∀ a b : PEvent, eventsKey a = eventsKey b → keyLe a b = true := by
    intro a b hk
    show pairLe (eventsKey a) (eventsKey b) = true
    rw [hk]
    exact pairLe_refl _
  have hkeyR : ∀ a b : PEvent, eventsKey a = eventsKey b → keyLe b a = true := by
    intro a b hk
    show pairLe (eventsKey b) (eventsKey a) = true
    rw [hk]
    exact pairLe_refl _
  refine ⟨?_, ?_, ?_, ?_⟩
  · exact @List.sorted_mergeSort PEvent keyLe htrans htotal
      (events.filter (filter_future now))
  · exact @List.sorted_mergeSort PEvent (fun a b => keyLe b a) htransR htotalR events
  · intro k
    exact mergeSort_filter_key keyLe htrans htotal hkeyA
      (events.filter (filter_future now)) k
  · intro k
    exact mergeSort_filter_key (fun a b => keyLe b a) htransR htotalR hkeyR events k

/-! ### Claim C9 -/

/-- C9: `events_list` is sorted in descending `(start, end)` order while
`upcoming_events_list` is ascending — the two views use opposite orientations of
the same pair-key order. -/
theorem views_opposite_orderings (now : PyDateTime) (events : List PEvent) :
    ((populate_context_variables now events).events_list).Pairwise
        (fun a b => keyLe b a = true)
  ∧ ((populate_context_variables now events).upcoming_events_list).Pairwise
        (fun a b => keyLe a b = true) := by
  have htrans : ∀ a b c : PEvent, keyLe a b = true → keyLe b c = true →
      keyLe a c = true := fun a b c h1 h2 => keyLe_trans h1 h2
  have htransR : ∀ a b c : PEvent, keyLe b a = true → keyLe c b = true →
      keyLe c a = true := fun a b c h1 h2 => keyLe_trans h2 h1
  have htotalR : ∀ a b : PEvent, ((fun a b => keyLe b a) a b
      || (fun a b => keyLe b a) b a) = true := by
    intro a b
    show (keyLe b a || keyLe a b) = true
    rw [Bool.or_comm]
    exact keyLe_total a b
  exact ⟨@List.sorted_mergeSort PEvent (fun a b => keyLe b a) htransR htotalR events,
    @List.sorted_mergeSort PEvent keyLe htrans keyLe_total
      (events.filter (filter_future now))⟩

end PelicanEvents
